import Mathlib

/-!
Verification of the fit_bot ingestion pipeline (`back-end/utils.py`).

The file shallowly embeds the three functions of the source —
`extract_text_from_pdf`, `tokenize_and_chunk` and `jsonify` — and proves
properties of the embedding.  External collaborators (the pdfplumber page
extractor, the tiktoken encoding, the file system) are parameters of the
embedding: the source never inspects their internals.

Python-specific behaviour is modelled explicitly:
* `range(0, n, step)` raises `ValueError` for `step = 0`, is the empty
  sequence for `step < 0` (with `n ≥ 0`), and otherwise enumerates the
  multiples of `step` below `n`;
* a slice `xs[i:j]` clamps its endpoints, counting negative ones from the
  end of the list;
* `str.replace(old, new)` replaces every non-overlapping occurrence of
  `old`, scanning left to right;
* a function body without a `return` statement returns `None`.
-/

/-- A tokenizer (a tiktoken encoding object): `encode` maps text to a token
sequence and `decode` maps a token sequence back to text.  The source fixes
the scheme `"cl100k_base"`; the windowing logic never inspects individual
tokens, so the encoding is a parameter of the embedding. -/
structure Encoding where
  encode : String → List Nat
  decode : List Nat → String

/-- Python `range(0, stop, step)` for a positive `step`: the arithmetic
progression `0, step, 2*step, ...` of all multiples of `step` below `stop`.
It has `⌈stop/step⌉ = (stop + step - 1) / step` elements. -/
def pyRange0 (stop step : Nat) : List Nat :=
  (List.range ((stop + step - 1) / step)).map (fun k => k * step)

/-- Normalisation Python applies to an endpoint `i` of a slice of a list of
length `n`: a negative index counts from the end (`n + i`, floored at `0`),
a nonnegative one is capped at `n`. -/
def pyIdx (n : Nat) (i : Int) : Nat :=
  if i < 0 then ((n : Int) + i).toNat else min i.toNat n

/-- Python slice `xs[i:j]` (with the default step `1`). -/
def pySlice (xs : List α) (i j : Int) : List α :=
  (xs.drop (pyIdx xs.length i)).take (pyIdx xs.length j - pyIdx xs.length i)

/-- `tokenize_and_chunk(text, chunk_size, overlap, model)` from the source
(defaults `chunk_size=500`, `overlap=50`): encode `text`, then for
`i in range(0, len(tokens), chunk_size - overlap)` decode the slice
`tokens[i:i+chunk_size]` into a chunk.  Python's `range` raises `ValueError`
when the step is zero (modelled as `.error` with the interpreter's message)
and yields no index at all when the step is negative, so in that case the
loop body never runs and the chunk list stays empty. -/
def tokenize_and_chunk (enc : Encoding) (text : String)
    (chunk_size overlap : Int) : Except String (List String) :=
  let tokens := enc.encode text
  let step := chunk_size - overlap
  if 0 < step then
    Except.ok ((pyRange0 tokens.length step.toNat).map
      (fun (i : Nat) => enc.decode (pySlice tokens (i : Int) ((i : Int) + chunk_size))))
  else if step = 0 then
    Except.error "range() arg 3 must not be zero"
  else
    Except.ok []

/-- The token windows the source loop slices (the positive-stride case):
`tokens[i:i+chunk_size]` for `i in range(0, len(tokens), chunk_size - overlap)`.
Each produced chunk is the decoding of one of these windows. -/
def chunkWindows (tokens : List Nat) (chunk_size overlap : Int) : List (List Nat) :=
  (pyRange0 tokens.length (chunk_size - overlap).toNat).map
    (fun (i : Nat) => pySlice tokens (i : Int) ((i : Int) + chunk_size))

/-- A concrete one-token-per-character encoding, used to evaluate the
embedding at explicit inputs (the windowing logic is vocabulary-agnostic). -/
def charEnc : Encoding where
  encode s := s.data.map Char.toNat
  decode ts := String.mk (ts.map Char.ofNat)

/-- `extract_text_from_pdf` from the source.  The pdfplumber collaborator is
modelled by the document's contents: `.error e` when opening or reading the
file raises (the source wraps the cause as `RuntimeError("Error reading PDF:
...")`), otherwise the list of per-page `page.extract_text()` results, where
`none` stands for a page with no extractable text, which is skipped silently.
The extracted page texts are joined with `"\n"`. -/
def extract_text_from_pdf (doc : Except String (List (Option String))) :
    Except String String :=
  match doc with
  | Except.error e => Except.error ("Error reading PDF: " ++ e)
  | Except.ok pages => Except.ok (String.intercalate "\n" (pages.filterMap id))

/-- Python `str.replace` worker: scan left to right, replacing each
non-overlapping occurrence of `pat` by `rep`.  `fuel` bounds the recursion;
`l.length` fuel suffices because every step consumes at least one character
of a non-empty `pat`.  (The source only ever calls this with the pattern
`".pdf"`; Python's special treatment of an empty pattern is not modelled.) -/
def replaceGo (pat rep : List Char) : List Char → Nat → List Char
  | l, 0 => l
  | [], _ + 1 => []
  | c :: cs, fuel + 1 =>
    if pat.isPrefixOf (c :: cs) then
      rep ++ replaceGo pat rep ((c :: cs).drop pat.length) fuel
    else
      c :: replaceGo pat rep cs fuel

/-- Python `s.replace(pat, rep)` for a non-empty `pat`. -/
def pyReplace (s pat rep : String) : String :=
  String.mk (replaceGo pat.data rep.data s.data s.data.length)

/-- `os.path.basename` under Windows path rules (the source hardcodes
`C:\...` paths): the part of the path after the last `\` or `/` separator.
Drive-relative paths such as `"C:file"` are not modelled. -/
def basename (p : String) : String :=
  String.mk (p.data.foldl
    (fun acc c => if c = '\\' ∨ c = '/' then [] else acc ++ [c]) [])

/-- The `author` label the source derives for a document:
`os.path.basename(pdf_path).replace(".pdf", "")`. -/
def author_of (pdf_path : String) : String :=
  pyReplace (basename pdf_path) ".pdf" ""

/-- One record of the output collection: `{"author": ..., "text": ...}`. -/
structure ChunkRec where
  author : String
  text : String
deriving DecidableEq

/-- The observable outcome of a successful `jsonify` run: the accumulated
record list, the path the JSON file is written to, the printed completion
message, and the Python return value — the function body has no `return`
statement, so the call returns `None`, modelled as `retval = none`. -/
structure JsonifyOutput where
  data : List ChunkRec
  output_path : String
  message : String
  retval : Option Nat
deriving DecidableEq

/-- Extraction followed by chunking for one document, exactly as performed
inside the `jsonify` loop.  `fs` maps a path to its document contents (the
file-system / pdfplumber collaborator). -/
def docChunks (fs : String → Except String (List (Option String)))
    (enc : Encoding) (chunk_size overlap : Int) (pdf_path : String) :
    Except String (List String) := do
  let full_text ← extract_text_from_pdf (fs pdf_path)
  tokenize_and_chunk enc full_text chunk_size overlap

/-- The accumulation loop of `jsonify`: documents in input order, one record
per chunk, each tagged with the document's derived label; the first exception
aborts everything (`Except` short-circuits like an uncaught Python
exception). -/
def processDocs (fs : String → Except String (List (Option String)))
    (enc : Encoding) (chunk_size overlap : Int) :
    List String → Except String (List ChunkRec)
  | [] => Except.ok []
  | p :: rest => do
    let chunks ← docChunks fs enc chunk_size overlap p
    let restData ← processDocs fs enc chunk_size overlap rest
    Except.ok ((chunks.map (fun c => ChunkRec.mk (author_of p) c)) ++ restData)

/-- The hardcoded output directory of the source:
`r"C:\Users\adamh\Desktop\fit_bot\back-end"`. -/
def output_dir : String := "C:\\Users\\adamh\\Desktop\\fit_bot\\back-end"

/-- `jsonify(paths, chunk_size, overlap, output_filename)` from the source
(default `output_filename="fitness_books.json"`).  On success it yields the
record list, the output path `output_dir + "\" + output_filename`, the
printed message and the `None` return value. -/
def jsonify (fs : String → Except String (List (Option String)))
    (enc : Encoding) (paths : List String) (chunk_size overlap : Int)
    (output_filename : String) : Except String JsonifyOutput := do
  let data ← processDocs fs enc chunk_size overlap paths
  let output_path := output_dir ++ "\\" ++ output_filename
  Except.ok ⟨data, output_path,
    "✅ JSON saved at " ++ output_path ++ " with "
      ++ toString data.length ++ " chunks.", none⟩

/-- The file writes a `jsonify` call performs: on success exactly one file —
the serialized collection at `output_path` — and on an exception none at all,
because the source opens and writes the output file only after the whole
accumulation loop has finished. -/
def jsonifyWrites (fs : String → Except String (List (Option String)))
    (enc : Encoding) (paths : List String) (chunk_size overlap : Int)
    (output_filename : String) : List (String × List ChunkRec) :=
  match jsonify fs enc paths chunk_size overlap output_filename with
  | Except.ok out => [(out.output_path, out.data)]
  | Except.error _ => []

/-- A concrete file system with a single readable document, for evaluating
`jsonify` at explicit inputs: every path holds one page of text `"abcd"`. -/
def fsEx : String → Except String (List (Option String)) :=
  fun _ => Except.ok [some "abcd"]

/-- A concrete file system where only `"good.pdf"` is readable, for
evaluating the failure path of `jsonify` at explicit inputs. -/
def fsFail : String → Except String (List (Option String)) :=
  fun p => if p = "good.pdf" then Except.ok [some "abcd"] else Except.error "boom"

/-- The output of `jsonify fsEx charEnc ["a.pdf"] 2 0 "o.json"`, written
out explicitly: the 4-token text `"abcd"` yields the chunks `"ab"`, `"cd"`,
labelled `"a"` (the basename `"a.pdf"` with `".pdf"` removed). -/
def outEx : JsonifyOutput :=
  ⟨[⟨"a", "ab"⟩, ⟨"a", "cd"⟩],
    "C:\\Users\\adamh\\Desktop\\fit_bot\\back-end\\o.json",
    "✅ JSON saved at C:\\Users\\adamh\\Desktop\\fit_bot\\back-end\\o.json with 2 chunks.",
    none⟩

/-- Decidable equality for `Except`, used to evaluate the embedding at
concrete inputs. -/
instance {ε α : Type} [DecidableEq ε] [DecidableEq α] :
    DecidableEq (Except ε α) := fun a b =>
  match a, b with
  | Except.ok x, Except.ok y =>
    if h : x = y then isTrue (by rw [h]) else isFalse (by simp [h])
  | Except.error x, Except.error y =>
    if h : x = y then isTrue (by rw [h]) else isFalse (by simp [h])
  | Except.ok _, Except.error _ => isFalse (by simp)
  | Except.error _, Except.ok _ => isFalse (by simp)

/-! ### Helper lemmas about the windowing loop -/

theorem pyRange0_length (stop step : Nat) :
    (pyRange0 stop step).length = (stop + step - 1) / step := by
  simp [pyRange0]

theorem ceil_div_lt_iff (stop step k : Nat) (h : 0 < step) :
    k < (stop + step - 1) / step ↔ k * step < stop := by
  rw [Nat.lt_iff_add_one_le, Nat.le_div_iff_mul_le h]
  have hm : (k + 1) * step = k * step + step := by ring
  rw [hm]
  omega

theorem pyRange0_get (stop step : Nat) (k : Nat)
    (hk : k < (pyRange0 stop step).length) :
    (pyRange0 stop step).get ⟨k, hk⟩ = k * step := by
  simp [pyRange0]

theorem pySlice_of_nonneg (xs : List α) (i j : Int) (hi : 0 ≤ i) (hj : 0 ≤ j) :
    pySlice xs i j = (xs.drop i.toNat).take (j.toNat - i.toNat) := by
  unfold pySlice pyIdx
  rw [if_neg (by omega), if_neg (by omega)]
  rcases le_or_lt i.toNat xs.length with h1 | h1
  · rw [min_eq_left h1]
    rcases le_or_lt j.toNat xs.length with h2 | h2
    · rw [min_eq_left h2]
    · rw [min_eq_right (le_of_lt h2)]
      have e1 : (xs.drop i.toNat).take (xs.length - i.toNat) = xs.drop i.toNat :=
        List.take_of_length_le (by rw [List.length_drop])
      have e2 : (xs.drop i.toNat).take (j.toNat - i.toNat) = xs.drop i.toNat :=
        List.take_of_length_le (by rw [List.length_drop]; omega)
      rw [e1, e2]
  · rw [min_eq_right (le_of_lt h1), List.drop_length,
      List.drop_of_length_le (le_of_lt h1)]
    simp

theorem chunkWindows_length (tokens : List Nat) (cs ov : Int) :
    (chunkWindows tokens cs ov).length =
      (tokens.length + (cs - ov).toNat - 1) / (cs - ov).toNat := by
  rw [chunkWindows, List.length_map, pyRange0_length]

theorem chunkWindows_get (tokens : List Nat) (cs ov : Int) (h1 : 0 ≤ cs)
    (k : Nat) (hk : k < (chunkWindows tokens cs ov).length) :
    (chunkWindows tokens cs ov).get ⟨k, hk⟩ =
      (tokens.drop (k * (cs - ov).toNat)).take cs.toNat := by
  unfold chunkWindows pyRange0 at hk ⊢
  rw [List.get_eq_getElem]
  simp only [List.getElem_map, List.getElem_range]
  rw [pySlice_of_nonneg tokens _ _ (by omega) (by omega)]
  congr 1
  omega

theorem tokenize_and_chunk_eq (enc : Encoding) (text : String) (cs ov : Int)
    (h : ov < cs) :
    tokenize_and_chunk enc text cs ov =
      Except.ok ((chunkWindows (enc.encode text) cs ov).map enc.decode) := by
  have hstep : (0 : Int) < cs - ov := by omega
  simp only [tokenize_and_chunk, chunkWindows, if_pos hstep]
  rw [List.map_map]
  rfl

theorem chunkWindows_mem_length (tokens : List Nat) (cs ov : Int) (h1 : 0 ≤ cs)
    (w : List Nat) (hw : w ∈ chunkWindows tokens cs ov) :
    w.length ≤ cs.toNat := by
  unfold chunkWindows at hw
  rw [List.mem_map] at hw
  obtain ⟨i, _, rfl⟩ := hw
  rw [pySlice_of_nonneg tokens _ _ (by omega) (by omega)]
  refine le_trans (List.length_take_le _ _) ?_
  omega

/-! ### Claims about the Token Chunker -/

/-- C1, counterexample.  `"abcdef"` encodes to `N = 6` tokens under the
one-token-per-character encoding; with `window_size = 5` and `overlap = 3`
(a valid configuration, `0 ≤ 3 < 5`) the source produces 3 chunks — one per
start index in `range(0, 6, 2) = [0, 2, 4]` — while the claimed count
`⌈(N − overlap) / (window_size − overlap)⌉ = ⌈3/2⌉ = 2`. -/
theorem chunk_count_counterexample :
    tokenize_and_chunk charEnc "abcdef" 5 3 =
      Except.ok ["abcde", "cdef", "ef"] ∧
    (["abcde", "cdef", "ef"] : List String).length = 3 ∧
    ((6 - 3) + (5 - 3) - 1) / (5 - 3) = 2 ∧ (3 : Nat) ≠ 2 :=
  ⟨by decide, by decide, by decide, by decide⟩

/-- C1, amended.  For every valid configuration (`window_size > 0`,
`0 ≤ overlap < window_size`) and every input text encoding to `N` tokens,
the source produces `⌈N / (window_size − overlap)⌉` chunks — `0` chunks when
`N = 0` and otherwise one chunk for every start index of
`range(0, N, stride)`, including start indices that fall inside the final
overlap region. -/
theorem chunk_count_formula (enc : Encoding) (text : String) (cs ov : Int)
    (h1 : 0 < cs) (h2 : 0 ≤ ov) (h3 : ov < cs) :
    Except.map List.length (tokenize_and_chunk enc text cs ov) =
      Except.ok (if (enc.encode text).length = 0 then 0
        else ((enc.encode text).length + (cs - ov).toNat - 1)
          / (cs - ov).toNat) := by
  rw [tokenize_and_chunk_eq enc text cs ov h3]
  show Except.ok _ = _
  rw [List.length_map, chunkWindows_length]
  rcases Nat.eq_zero_or_pos (enc.encode text).length with h0 | h0
  · rw [if_pos h0, h0]
    have : ((cs - ov).toNat - 1) / (cs - ov).toNat = 0 :=
      Nat.div_eq_of_lt (by omega)
    rw [Nat.zero_add, this]
  · rw [if_neg (by omega)]

/-- C1 witness: the amended count formula evaluated at `"abcdef"`,
`window_size = 5`, `overlap = 3`. -/
theorem chunk_count_formula_witness :
    Except.map List.length (tokenize_and_chunk charEnc "abcdef" 5 3) =
      Except.ok (if (charEnc.encode "abcdef").length = 0 then 0
        else ((charEnc.encode "abcdef").length + ((5 : Int) - 3).toNat - 1)
          / ((5 : Int) - 3).toNat) :=
  chunk_count_formula charEnc "abcdef" 5 3 (by decide) (by decide) (by decide)

/-- C2: the claim (validated configuration, `ConfigurationError` before any
tokenization) is what the spec requires, and the code has no validation at
all — a code bug the spec itself flags as a latent defect.  Evaluating the
embedding at invalid configurations: `overlap = window_size` makes the loop
raise Python's builtin `ValueError` from `range` (after `enc.encode` has
already run), `overlap > window_size` silently yields no chunks, and
`window_size = 0` with `overlap = -2` silently yields chunks of empty text.
No `ConfigurationError` exists anywhere in the source. -/
theorem chunk_invalid_config_eval :
    tokenize_and_chunk charEnc "abcdef" 5 5 =
      Except.error "range() arg 3 must not be zero" ∧
    tokenize_and_chunk charEnc "abcdef" 5 7 = Except.ok [] ∧
    tokenize_and_chunk charEnc "abcdef" 0 (-2) = Except.ok ["", "", ""] :=
  ⟨by decide, by decide, by decide⟩

/-- C3, counterexample.  With `window_size = 5`, `overlap = 3` and the
6-token text `"abcdef"`, the windows have lengths `[5, 4, 2]`: the window at
index 1 is not the last of the three, yet it has only 4 tokens. -/
theorem chunk_full_window_counterexample :
    (chunkWindows (charEnc.encode "abcdef") 5 3).map List.length = [5, 4, 2] ∧
    (4 : Nat) ≠ 5 :=
  ⟨by decide, by decide⟩

/-- C3, amended.  For every valid configuration, the window of the chunk at
index `k` has exactly `min window_size (N − k·stride)` tokens: it is full
exactly when `k·stride + window_size ≤ N`, and with `overlap > 0` more than
one trailing window may be shorter than `window_size`. -/
theorem chunk_window_lengths (tokens : List Nat) (cs ov : Int)
    (h1 : 0 < cs) (h2 : 0 ≤ ov) (h3 : ov < cs)
    (k : Nat) (hk : k < (chunkWindows tokens cs ov).length) :
    ((chunkWindows tokens cs ov).get ⟨k, hk⟩).length =
      min cs.toNat (tokens.length - k * (cs - ov).toNat) := by
  rw [chunkWindows_get tokens cs ov (by omega) k hk]
  rw [List.length_take, List.length_drop]

/-- C3 witness: window lengths evaluated at `"abcdef"`, `window_size = 5`,
`overlap = 3`, window index 1 (whose length is `min 5 (6 − 2) = 4`). -/
theorem chunk_window_lengths_witness :
    ((chunkWindows (charEnc.encode "abcdef") 5 3).get
        ⟨1, by decide⟩).length =
      min (5 : Int).toNat
        ((charEnc.encode "abcdef").length - 1 * ((5 : Int) - 3).toNat) :=
  chunk_window_lengths (charEnc.encode "abcdef") 5 3 (by decide) (by decide)
    (by decide) 1 (by decide)

/-- C4, confirmed.  For every valid configuration with `overlap > 0`, if the
window at index `k` is a full `window_size`-token window, then its last
`overlap` tokens (what remains after dropping the first
`window_size − overlap`) are exactly the first `overlap` tokens of the
window at index `k + 1`. -/
theorem chunk_overlap_boundary (tokens : List Nat) (cs ov : Int)
    (h1 : 0 < ov) (h3 : ov < cs)
    (k : Nat) (hk : k < (chunkWindows tokens cs ov).length)
    (hk1 : k + 1 < (chunkWindows tokens cs ov).length)
    (hfull : k * (cs - ov).toNat + cs.toNat ≤ tokens.length) :
    ((chunkWindows tokens cs ov).get ⟨k, hk⟩).drop (cs.toNat - ov.toNat) =
      ((chunkWindows tokens cs ov).get ⟨k + 1, hk1⟩).take ov.toNat := by
  rw [chunkWindows_get tokens cs ov (by omega) k hk,
    chunkWindows_get tokens cs ov (by omega) (k + 1) hk1]
  rw [List.drop_take, List.drop_drop, List.take_take]
  have e1 : cs.toNat - (cs.toNat - ov.toNat) = ov.toNat := by omega
  have e2 : k * (cs - ov).toNat + (cs.toNat - ov.toNat)
      = (k + 1) * (cs - ov).toNat := by
    have : (k + 1) * (cs - ov).toNat = k * (cs - ov).toNat + (cs - ov).toNat := by
      ring
    omega
  have e3 : min ov.toNat cs.toNat = ov.toNat := by omega
  rw [e1, e2, e3]

/-- C4 witness: the boundary overlap evaluated at the 8-token text
`"abcdefgh"`, `window_size = 5`, `overlap = 3`, windows 0 and 1. -/
theorem chunk_overlap_boundary_witness :
    ((chunkWindows (charEnc.encode "abcdefgh") 5 3).get
        ⟨0, by decide⟩).drop ((5 : Int).toNat - (3 : Int).toNat) =
      ((chunkWindows (charEnc.encode "abcdefgh") 5 3).get
        ⟨0 + 1, by decide⟩).take (3 : Int).toNat :=
  chunk_overlap_boundary (charEnc.encode "abcdefgh") 5 3 (by decide) (by decide)
    0 (by decide) (by decide) (by decide)

/-- C5, confirmed.  For a tokenizer whose decode/encode round trip never
grows a token sequence — the spec's "round-trip bounded by the same
vocabulary" assumption on the tiktoken collaborator — every chunk produced
under a valid configuration re-encodes to at most `window_size` tokens,
because each chunk decodes a window of at most `window_size` tokens. -/
theorem chunk_reencode_bounded (enc : Encoding) (text : String) (cs ov : Int)
    (hrt : ∀ ts : List Nat, (enc.encode (enc.decode ts)).length ≤ ts.length)
    (h1 : 0 < cs) (h2 : 0 ≤ ov) (h3 : ov < cs) (cks : List String)
    (hok : tokenize_and_chunk enc text cs ov = Except.ok cks)
    (c : String) (hc : c ∈ cks) :
    (enc.encode c).length ≤ cs.toNat := by
  rw [tokenize_and_chunk_eq enc text cs ov h3] at hok
  have hcks : cks = (chunkWindows (enc.encode text) cs ov).map enc.decode :=
    (Except.ok.inj hok).symm
  subst hcks
  rw [List.mem_map] at hc
  obtain ⟨w, hw, rfl⟩ := hc
  exact le_trans (hrt w)
    (chunkWindows_mem_length (enc.encode text) cs ov (by omega) w hw)

/-- C5 witness: the chunk `"cdef"` of `tokenize_and_chunk "abcdef" 5 3`
under the character encoding (whose round trip is length-preserving)
re-encodes to at most 5 tokens. -/
theorem chunk_reencode_bounded_witness :
    (charEnc.encode "cdef").length ≤ (5 : Int).toNat :=
  chunk_reencode_bounded charEnc "abcdef" 5 3
    (fun ts => by simp [charEnc]) (by decide) (by decide) (by decide)
    ["abcde", "cdef", "ef"] (by decide) "cdef" (by decide)

/-- C9, counterexample.  The claim says an unguarded `overlap ≥ window_size`
yields an infinite loop or reversed output.  In fact Python's `range`
terminates on every input: with `overlap > window_size` (negative stride)
`range(0, N, stride)` is empty, so the call returns an empty chunk list, and
with `overlap = window_size` (zero stride) `range` raises `ValueError`, so
the call aborts with that builtin error — never an infinite loop and never
reversed output. -/
theorem chunk_degenerate_counterexample :
    tokenize_and_chunk charEnc "abcdef" 5 7 = Except.ok [] ∧
    tokenize_and_chunk charEnc "abcdef" 5 5 =
      Except.error "range() arg 3 must not be zero" :=
  ⟨by decide, by decide⟩

/-- C9, amended.  The windowing logic indeed has no guard against
`overlap ≥ window_size`, but the degenerate stride terminates on every
input: a zero stride makes `range` raise `ValueError` and a negative stride
makes `range` empty, so the chunk list is empty. -/
theorem chunk_degenerate_stride (enc : Encoding) (text : String) (cs ov : Int)
    (h : cs ≤ ov) :
    tokenize_and_chunk enc text cs ov =
      if cs = ov then Except.error "range() arg 3 must not be zero"
      else Except.ok [] := by
  simp only [tokenize_and_chunk]
  rw [if_neg (by omega)]
  by_cases hc : cs = ov
  · rw [if_pos (by omega), if_pos hc]
  · rw [if_neg (by omega), if_neg hc]

/-- C9 witness: the degenerate-stride behaviour evaluated at `"abcdef"`,
`window_size = 5`, `overlap = 7`. -/
theorem chunk_degenerate_stride_witness :
    tokenize_and_chunk charEnc "abcdef" 5 7 =
      if (5 : Int) = 7 then Except.error "range() arg 3 must not be zero"
      else Except.ok [] :=
  chunk_degenerate_stride charEnc "abcdef" 5 7 (by decide)

/-! ### Helper lemmas about labels and the batch loop -/

theorem isPrefixOf_self (l : List Char) : l.isPrefixOf l = true := by
  induction l with
  | nil => rfl
  | cons c cs ih => simp [List.isPrefixOf, ih]

theorem replaceGo_nil (pat rep : List Char) (fuel : Nat) :
    replaceGo pat rep [] fuel = [] := by
  cases fuel <;> rfl

/-- Replacing a non-empty `pat` by nothing in `stem ++ pat`, when `pat`
occurs nowhere before position `stem.length`, leaves exactly `stem`. -/
theorem replaceGo_append_pat (pat : List Char) (stem : List Char) (fuel : Nat)
    (hpat : pat ≠ []) (hfuel : (stem ++ pat).length ≤ fuel)
    (hocc : ∀ k, k < stem.length →
      pat.isPrefixOf ((stem ++ pat).drop k) = false) :
    replaceGo pat [] (stem ++ pat) fuel = stem := by
  induction stem generalizing fuel with
  | nil =>
    rw [List.nil_append]
    cases fuel with
    | zero =>
      exfalso
      have h0 : 0 < pat.length := List.length_pos.mpr hpat
      simp only [List.nil_append] at hfuel
      omega
    | succ f =>
      cases pat with
      | nil => exact absurd rfl hpat
      | cons c cs =>
        show replaceGo (c :: cs) [] (c :: cs) (f + 1) = []
        rw [replaceGo, if_pos (isPrefixOf_self (c :: cs))]
        rw [List.drop_length, replaceGo_nil, List.nil_append]
  | cons c cs ih =>
    cases fuel with
    | zero =>
      exfalso
      simp at hfuel
    | succ f =>
      have h0 : pat.isPrefixOf (c :: (cs ++ pat)) = false := by
        have := hocc 0 (by simp)
        rwa [List.drop_zero, List.cons_append] at this
      rw [List.cons_append, replaceGo, if_neg (by rw [h0]; exact Bool.false_ne_true)]
      congr 1
      apply ih f
      · simp at hfuel ⊢
        omega
      · intro k hk
        have := hocc (k + 1) (by simp; omega)
        rwa [List.cons_append, List.drop_succ_cons] at this

/-! ### Claims about labels and the Batch Serializer -/

/-- C7, counterexample.  The source computes the label as
`os.path.basename(path).replace(".pdf", "")`, which removes every
occurrence of the substring `".pdf"`, not one trailing extension: the path
`"books/intro.pdf.pdf"` gets the label `"intro"` instead of the claimed
`"intro.pdf"`, and `"notes.txt"` keeps its `.txt` extension instead of the
claimed `"notes"`. -/
theorem author_label_counterexample :
    author_of "books/intro.pdf.pdf" = "intro" ∧
    author_of "books/intro.pdf.pdf" ≠ "intro.pdf" ∧
    author_of "notes.txt" = "notes.txt" ∧
    author_of "notes.txt" ≠ "notes" :=
  ⟨by decide, by decide, by decide, by decide⟩

/-- C7, amended.  The label is the path's final segment with every
occurrence of the substring `".pdf"` removed.  In particular, when the final
segment is `stem + ".pdf"` and `".pdf"` occurs nowhere earlier in it, the
label is exactly the final segment with its `".pdf"` extension removed; a
non-`".pdf"` extension is never stripped and interior `".pdf"` occurrences
are also deleted (see the counterexample). -/
theorem author_label_extension (p : String) (stem : List Char)
    (hb : basename p = String.mk (stem ++ (".pdf").data))
    (hocc : ∀ k, k < stem.length →
      (".pdf").data.isPrefixOf ((stem ++ (".pdf").data).drop k) = false) :
    author_of p = String.mk stem := by
  unfold author_of pyReplace
  rw [hb]
  show String.mk (replaceGo (".pdf").data ("").data (stem ++ (".pdf").data)
    (stem ++ (".pdf").data).length) = String.mk stem
  congr 1
  exact replaceGo_append_pat (".pdf").data stem _ (by decide) (le_refl _) hocc

/-- C7 witness: the amended label rule evaluated at `"docs/intro.pdf"`,
whose stem `"intro"` contains no `".pdf"`. -/
theorem author_label_extension_witness :
    author_of "docs/intro.pdf" = String.mk ("intro").data :=
  author_label_extension "docs/intro.pdf" ("intro").data (by decide)
    (by decide)

theorem except_bind_ok {ε α β : Type} (a : α) (f : α → Except ε β) :
    (Except.ok a >>= f : Except ε β) = f a := rfl

theorem except_bind_error {ε α β : Type} (e : ε) (f : α → Except ε β) :
    (Except.error e >>= f : Except ε β) = Except.error e := rfl

/-- On success, the accumulated record count is the sum over the input
documents of their individual chunk counts. -/
theorem processDocs_ok_length (fs : String → Except String (List (Option String)))
    (enc : Encoding) (cs ov : Int) (paths : List String) (data : List ChunkRec)
    (h : processDocs fs enc cs ov paths = Except.ok data) :
    data.length = (paths.map (fun p =>
      ((docChunks fs enc cs ov p).toOption.getD []).length)).sum := by
  induction paths generalizing data with
  | nil =>
    rw [processDocs] at h
    have h0 := Except.ok.inj h
    rw [← h0]
    simp
  | cons p rest ih =>
    rw [processDocs] at h
    cases hd : docChunks fs enc cs ov p with
    | error e =>
      rw [hd, except_bind_error] at h
      exact absurd h (by simp)
    | ok chunks =>
      rw [hd, except_bind_ok] at h
      cases hr : processDocs fs enc cs ov rest with
      | error e =>
        rw [hr, except_bind_error] at h
        exact absurd h (by simp)
      | ok restData =>
        rw [hr, except_bind_ok] at h
        have hdata := Except.ok.inj h
        subst hdata
        rw [List.length_append, List.length_map, List.map_cons, List.sum_cons,
          hd, ih restData hr]
        rfl

/-- If every document before `p` succeeds and `p` fails with `e`, the whole
accumulation fails with `e`. -/
theorem processDocs_append_error
    (fs : String → Except String (List (Option String))) (enc : Encoding)
    (cs ov : Int) (pre : List String) (p : String) (suf : List String)
    (e : String)
    (hpre : ∀ q ∈ pre, ∃ d, docChunks fs enc cs ov q = Except.ok d)
    (hfail : docChunks fs enc cs ov p = Except.error e) :
    processDocs fs enc cs ov (pre ++ p :: suf) = Except.error e := by
  induction pre with
  | nil =>
    rw [List.nil_append, processDocs, hfail, except_bind_error]
  | cons q qs ih =>
    obtain ⟨d, hd⟩ := hpre q (by simp)
    rw [List.cons_append, processDocs, hd, except_bind_ok,
      ih (fun r hr => hpre r (by simp [hr])), except_bind_error]

/-- C6, counterexample.  The Python `jsonify` has no `return` statement: at
a concrete batch producing 2 chunks, the call's return value is `None`, not
the chunk count `2` — the count only appears in the printed message. -/
theorem jsonify_returns_none_counterexample :
    (jsonify fsEx charEnc ["a.pdf"] 2 0 "o.json").map
      (fun o => (o.retval, o.data.length)) = Except.ok (none, 2) ∧
    (none : Option Nat) ≠ some 2 :=
  ⟨by decide, by decide⟩

/-- C6, amended.  `jsonify` does not return the total chunk count — the
function returns `None`; it reports the total in its printed completion
message, and that total (the length of the accumulated record list) equals
the sum over all documents of their chunk counts. -/
theorem jsonify_reports_count
    (fs : String → Except String (List (Option String))) (enc : Encoding)
    (paths : List String) (cs ov : Int) (fn : String) (out : JsonifyOutput)
    (h : jsonify fs enc paths cs ov fn = Except.ok out) :
    out.retval = none ∧
    out.data.length = (paths.map (fun p =>
      ((docChunks fs enc cs ov p).toOption.getD []).length)).sum ∧
    out.message = "✅ JSON saved at " ++ out.output_path ++ " with "
      ++ toString out.data.length ++ " chunks." := by
  unfold jsonify at h
  cases hp : processDocs fs enc cs ov paths with
  | error e =>
    rw [hp, except_bind_error] at h
    exact absurd h (by simp)
  | ok data =>
    rw [hp, except_bind_ok] at h
    have hout := Except.ok.inj h
    subst hout
    exact ⟨rfl, processDocs_ok_length fs enc cs ov paths data hp, rfl⟩

/-- C6 witness: the amended statement evaluated at a one-document batch
with 2 chunks. -/
theorem jsonify_reports_count_witness :
    outEx.retval = none ∧
    outEx.data.length = ((["a.pdf"] : List String).map (fun p =>
      ((docChunks fsEx charEnc 2 0 p).toOption.getD []).length)).sum ∧
    outEx.message = "✅ JSON saved at " ++ outEx.output_path ++ " with "
      ++ toString outEx.data.length ++ " chunks." :=
  jsonify_reports_count fsEx charEnc ["a.pdf"] 2 0 "o.json" outEx (by decide)

/-- C8, confirmed.  If every document before `p` is extracted and chunked
successfully and `p` fails with error `e`, then the whole batch fails with
exactly `e` (the first error propagates unchanged) and no output file is
written — the source only opens and writes the output file after the
accumulation loop has completed. -/
theorem jsonify_first_error_aborts
    (fs : String → Except String (List (Option String))) (enc : Encoding)
    (cs ov : Int) (fn : String) (pre : List String) (p : String)
    (suf : List String) (e : String)
    (hpre : ∀ q ∈ pre, ∃ d, docChunks fs enc cs ov q = Except.ok d)
    (hfail : docChunks fs enc cs ov p = Except.error e) :
    jsonify fs enc (pre ++ p :: suf) cs ov fn = Except.error e ∧
    jsonifyWrites fs enc (pre ++ p :: suf) cs ov fn = [] := by
  have hp := processDocs_append_error fs enc cs ov pre p suf e hpre hfail
  have hj : jsonify fs enc (pre ++ p :: suf) cs ov fn = Except.error e := by
    unfold jsonify
    rw [hp, except_bind_error]
  refine ⟨hj, ?_⟩
  unfold jsonifyWrites
  rw [hj]

/-- C8 witness: a three-document batch whose second document is unreadable
aborts with the wrapped extraction error and writes nothing. -/
theorem jsonify_first_error_aborts_witness :
    jsonify fsFail charEnc (["good.pdf"] ++ "bad.pdf" :: ["later.pdf"]) 2 0
      "o.json" = Except.error "Error reading PDF: boom" ∧
    jsonifyWrites fsFail charEnc (["good.pdf"] ++ "bad.pdf" :: ["later.pdf"])
      2 0 "o.json" = [] :=
  jsonify_first_error_aborts fsFail charEnc 2 0 "o.json" ["good.pdf"]
    "bad.pdf" ["later.pdf"] "Error reading PDF: boom"
    (fun q hq => by
      rw [List.mem_singleton] at hq
      subst hq
      exact ⟨["ab", "cd"], by decide⟩)
    (by decide)

/-- C10, confirmed.  Whenever `jsonify` succeeds, the file it writes lives
at the hardcoded directory `C:\Users\adamh\Desktop\fit_bot\back-end` joined
with the `output_filename` parameter: the parameter selects only the file's
name, never its directory. -/
theorem jsonify_fixed_output_dir
    (fs : String → Except String (List (Option String))) (enc : Encoding)
    (paths : List String) (cs ov : Int) (fn : String) (out : JsonifyOutput)
    (h : jsonify fs enc paths cs ov fn = Except.ok out) :
    out.output_path =
      "C:\\Users\\adamh\\Desktop\\fit_bot\\back-end" ++ "\\" ++ fn := by
  unfold jsonify at h
  cases hp : processDocs fs enc cs ov paths with
  | error e =>
    rw [hp, except_bind_error] at h
    exact absurd h (by simp)
  | ok data =>
    rw [hp, except_bind_ok] at h
    have hout := Except.ok.inj h
    subst hout
    rfl

/-- C10 witness: the fixed output directory evaluated at a concrete
successful batch. -/
theorem jsonify_fixed_output_dir_witness :
    outEx.output_path =
      "C:\\Users\\adamh\\Desktop\\fit_bot\\back-end" ++ "\\" ++ "o.json" :=
  jsonify_fixed_output_dir fsEx charEnc ["a.pdf"] 2 0 "o.json" outEx
    (by decide)

